import Mathlib

/-!
Verification of the PixelPruner core (src/app.py): the crop-geometry engine
(`process_crop_click`), the session navigation and zoom mutators
(`navigate_image`, `update_zoom`), the output-file naming in `save_crop`,
and the selection-set operations (`toggle_file_selection`,
`delete_selected_crops`).

Numeric conventions of the embedding: Python floats are modelled as exact
rationals (`ℚ`); Python `int(x)` (truncation toward zero) is `pyInt`;
Python `//` and `%` on integers are floor division and Euclidean remainder,
which on `ℤ` coincide with Lean's `/` and `%`.
-/

namespace PixelPruner

/-- Python `int(·)` applied to a float (modelled as a rational):
truncation toward zero. -/
def pyInt (q : ℚ) : ℤ := q.num.tdiv (q.den : ℤ)

/-- `effective_crop_width = int(base_crop_width / zoom_value)`
(src/app.py line 248; line 249 is the same for the height). -/
def effective_crop_width (base : ℤ) (zoom : ℚ) : ℤ :=
  pyInt ((base : ℚ) / zoom)

/-- The data produced by one crop click: the resolved rectangle in
original-image coordinates (lines 271-276) and the size the cropped raster
is resized to (line 282). -/
structure CropResult where
  crop_x : ℤ
  crop_y : ℤ
  actual_crop_width : ℤ
  actual_crop_height : ℤ
  out_width : ℤ
  out_height : ℤ
deriving DecidableEq, Repr

/-- Geometry of `process_crop_click` (src/app.py lines 240-285).
`base_w`/`base_h` are the target crop dimensions, `zoom` the zoom factor,
`click` the optional `evt.index` payload (`none` models a missing/empty
payload, defaulted to `(0, 0)` on lines 252-253), `(W, H)` the original
image size, `(dw, dh)` the display image size.  The scale factors
(lines 263-264), click mapping (lines 267-268), centering and clamping
(lines 271-276) and the final resize size (line 282) are translated
directly; the raster pixel data itself is not modelled. -/
def process_crop_click (base_w base_h : ℤ) (zoom : ℚ)
    (click : Option (ℤ × ℤ)) (W H dw dh : ℤ) : CropResult :=
  let ew := effective_crop_width base_w zoom
  let eh := effective_crop_width base_h zoom
  let c := click.getD (0, 0)
  let ocx := pyInt ((c.1 : ℚ) * ((W : ℚ) / (dw : ℚ)))
  let ocy := pyInt ((c.2 : ℚ) * ((H : ℚ) / (dh : ℚ)))
  let cx := max 0 (min (ocx - ew / 2) (W - ew))
  let cy := max 0 (min (ocy - eh / 2) (H - eh))
  { crop_x := cx
    crop_y := cy
    actual_crop_width := min ew (W - cx)
    actual_crop_height := min eh (H - cy)
    out_width := base_w
    out_height := base_h }

/-- The clamped rectangle of `process_crop_click` is always inside the
image: unconditional containment of the resolved crop rectangle. -/
theorem process_crop_click_bounds (base_w base_h : ℤ) (zoom : ℚ)
    (click : Option (ℤ × ℤ)) (W H dw dh : ℤ) :
    0 ≤ (process_crop_click base_w base_h zoom click W H dw dh).crop_x ∧
    0 ≤ (process_crop_click base_w base_h zoom click W H dw dh).crop_y ∧
    (process_crop_click base_w base_h zoom click W H dw dh).crop_x
      + (process_crop_click base_w base_h zoom click W H dw dh).actual_crop_width ≤ W ∧
    (process_crop_click base_w base_h zoom click W H dw dh).crop_y
      + (process_crop_click base_w base_h zoom click W H dw dh).actual_crop_height ≤ H := by
  simp only [process_crop_click]
  omega

/-- C1: for every original image size `(W, H)` with `W > 0`, `H > 0`, every
effective sample size with both dimensions positive, and every click
coordinate, the rectangle `(crop_x, crop_y, actual_crop_width,
actual_crop_height)` computed by `process_crop_click` satisfies
`0 ≤ crop_x`, `0 ≤ crop_y`, `crop_x + actual_crop_width ≤ W` and
`crop_y + actual_crop_height ≤ H`. -/
theorem c1_crop_containment (base_w base_h : ℤ) (zoom : ℚ)
    (click : Option (ℤ × ℤ)) (W H dw dh : ℤ)
    (hW : 0 < W) (hH : 0 < H)
    (hew : 0 < effective_crop_width base_w zoom)
    (heh : 0 < effective_crop_width base_h zoom) :
    0 ≤ (process_crop_click base_w base_h zoom click W H dw dh).crop_x ∧
    0 ≤ (process_crop_click base_w base_h zoom click W H dw dh).crop_y ∧
    (process_crop_click base_w base_h zoom click W H dw dh).crop_x
      + (process_crop_click base_w base_h zoom click W H dw dh).actual_crop_width ≤ W ∧
    (process_crop_click base_w base_h zoom click W H dw dh).crop_y
      + (process_crop_click base_w base_h zoom click W H dw dh).actual_crop_height ≤ H :=
  process_crop_click_bounds base_w base_h zoom click W H dw dh

/-- Witness for C1 at a concrete input: original 1000×800, target 512×512,
zoom 1.0, click (0, 0) on a 1000×800 display. -/
theorem c1_crop_containment_witness :
    0 < (1000 : ℤ) ∧ 0 < (800 : ℤ) ∧
    0 < effective_crop_width 512 1 ∧ 0 < effective_crop_width 512 1 ∧
    (0 ≤ (process_crop_click 512 512 1 (some (0, 0)) 1000 800 1000 800).crop_x ∧
     0 ≤ (process_crop_click 512 512 1 (some (0, 0)) 1000 800 1000 800).crop_y ∧
     (process_crop_click 512 512 1 (some (0, 0)) 1000 800 1000 800).crop_x
       + (process_crop_click 512 512 1 (some (0, 0)) 1000 800 1000 800).actual_crop_width ≤ 1000 ∧
     (process_crop_click 512 512 1 (some (0, 0)) 1000 800 1000 800).crop_y
       + (process_crop_click 512 512 1 (some (0, 0)) 1000 800 1000 800).actual_crop_height ≤ 800) :=
  have hpos : 0 < effective_crop_width 512 1 := by
    norm_num [effective_crop_width, pyInt] <;> decide
  ⟨by decide, by decide, hpos, hpos,
    c1_crop_containment 512 512 1 (some (0, 0)) 1000 800 1000 800
      (by decide) (by decide) hpos hpos⟩

/-- Python truncation agrees with the floor on nonnegative values. -/
theorem pyInt_eq_floor (q : ℚ) (h : 0 ≤ q) : pyInt q = ⌊q⌋ := by
  unfold pyInt
  rw [Int.tdiv_eq_ediv (Rat.num_nonneg.mpr h) (Int.ofNat_nonneg q.den),
    ← Rat.floor_def]

/-- C2: the effective sample size is `(⌊tw / z⌋, ⌊th / z⌋)` for positive
zoom `z`, and the output raster is always resized to the requested target
dimensions `(tw, th)`, never to the effective sample size. -/
theorem c2_effective_sample_and_output (tw th : ℤ) (z : ℚ)
    (hz : 0 < z) (htw : 0 ≤ tw) (hth : 0 ≤ th) :
    effective_crop_width tw z = ⌊(tw : ℚ) / z⌋ ∧
    effective_crop_width th z = ⌊(th : ℚ) / z⌋ ∧
    ∀ (click : Option (ℤ × ℤ)) (W H dw dh : ℤ),
      (process_crop_click tw th z click W H dw dh).out_width = tw ∧
      (process_crop_click tw th z click W H dw dh).out_height = th := by
  refine ⟨pyInt_eq_floor _ ?_, pyInt_eq_floor _ ?_, fun click W H dw dh => ⟨rfl, rfl⟩⟩
  · exact div_nonneg (by exact_mod_cast htw) (le_of_lt hz)
  · exact div_nonneg (by exact_mod_cast hth) (le_of_lt hz)

/-- Witness for C2: target (512, 512) at zoom 2.0 yields the effective
sample (256, 256), while the output raster size stays (512, 512). -/
theorem c2_effective_sample_and_output_witness :
    (0 : ℚ) < 2 ∧
    effective_crop_width 512 2 = 256 ∧ effective_crop_width 512 2 = 256 ∧
    (process_crop_click 512 512 2 none 1000 800 800 600).out_width = 512 ∧
    (process_crop_click 512 512 2 none 1000 800 800 600).out_height = 512 := by
  have hz : (0 : ℚ) < 2 := by norm_num
  have h := c2_effective_sample_and_output 512 512 2 hz (by decide) (by decide)
  have hfloor : ⌊(512 : ℚ) / 2⌋ = 256 := by
    have : (512 : ℚ) / 2 = ((256 : ℤ) : ℚ) := by norm_num
    rw [this, Int.floor_intCast]
  exact ⟨hz, h.1.trans hfloor, h.1.trans hfloor,
    (h.2.2 none 1000 800 800 600).1, (h.2.2 none 1000 800 800 600).2⟩

/-- Counterexample for C3: with target width 1 and zoom 2.0 the effective
sample width floors to 0 and is not raised to 1 — the resolved rectangle
has width 0 and height 0, contradicting the claimed minimum of 1 pixel. -/
theorem c3_counterexample :
    effective_crop_width 1 2 = 0 ∧
    (process_crop_click 1 1 2 (some (50, 50)) 100 100 100 100).actual_crop_width = 0 ∧
    (process_crop_click 1 1 2 (some (50, 50)) 100 100 100 100).actual_crop_height = 0 := by
  refine ⟨?_, ?_, ?_⟩ <;> norm_num [process_crop_click, effective_crop_width, pyInt] <;> decide

/-- C3 (amended): `process_crop_click` applies no 1-pixel minimum — when
`int(target / zoom)` is 0 in a dimension, the resolved rectangle has
size 0 in that dimension (for any image with nonnegative dimensions). -/
theorem c3_zero_effective_sample (base_w base_h : ℤ) (zoom : ℚ)
    (click : Option (ℤ × ℤ)) (W H dw dh : ℤ) (hW : 0 ≤ W) (hH : 0 ≤ H) :
    (effective_crop_width base_w zoom = 0 →
      (process_crop_click base_w base_h zoom click W H dw dh).actual_crop_width = 0) ∧
    (effective_crop_width base_h zoom = 0 →
      (process_crop_click base_w base_h zoom click W H dw dh).actual_crop_height = 0) := by
  simp only [process_crop_click]
  constructor <;> intro h <;> omega

/-- Witness for C3's amended theorem at a concrete input. -/
theorem c3_zero_effective_sample_witness :
    0 ≤ (100 : ℤ) ∧ effective_crop_width 1 2 = 0 ∧
    (process_crop_click 1 1 2 (some (50, 50)) 100 100 100 100).actual_crop_width = 0 :=
  have hz : effective_crop_width 1 2 = 0 := by
    norm_num [effective_crop_width, pyInt] <;> decide
  ⟨by decide, hz,
    (c3_zero_effective_sample 1 1 2 (some (50, 50)) 100 100 100 100
      (by decide) (by decide)).1 hz⟩

/-- The session-state fields used by navigation and the zoom mutator
(src/app.py lines 13-14, 45): the ordered image list, the current index
and the current zoom. -/
structure NavState where
  images : List String
  current_index : ℤ
  current_zoom : ℚ
deriving DecidableEq, Repr

/-- `navigate_image` (src/app.py lines 205-228): returns the state
unchanged when no images are loaded; otherwise steps the index with
Python's wrapping `%` for direction `"next"` or `"prev"` (any other
string leaves the index alone) and resets the zoom to 1.0.  The
display-image rendering is not modelled. -/
def navigate_image (s : NavState) (direction : String) : NavState :=
  if s.images.isEmpty then s
  else
    let n : ℤ := s.images.length
    let i :=
      if direction = "next" then (s.current_index + 1) % n
      else if direction = "prev" then (s.current_index - 1) % n
      else s.current_index
    { s with current_index := i, current_zoom := 1 }

/-- Claim C4: with a non-empty image list of length `n` and current index
`i ∈ [0, n)`, `navigate_image` maps `"next"` to index `(i + 1) mod n` and
`"prev"` to `(i - 1) mod n` (both again in `[0, n)`), and every
navigation resets the zoom to 1.0. -/
theorem c4_navigation_wrap (s : NavState) (hne : s.images ≠ [])
    (h0 : 0 ≤ s.current_index)
    (hlt : s.current_index < (s.images.length : ℤ)) :
    (navigate_image s "next").current_index
        = (s.current_index + 1) % (s.images.length : ℤ) ∧
    (navigate_image s "prev").current_index
        = (s.current_index - 1) % (s.images.length : ℤ) ∧
    0 ≤ (navigate_image s "next").current_index ∧
    (navigate_image s "next").current_index < (s.images.length : ℤ) ∧
    0 ≤ (navigate_image s "prev").current_index ∧
    (navigate_image s "prev").current_index < (s.images.length : ℤ) ∧
    (navigate_image s "next").current_zoom = 1 ∧
    (navigate_image s "prev").current_zoom = 1 := by
  have hemp : s.images.isEmpty = false := by
    simp [List.isEmpty_iff, hne]
  have hn : 0 < (s.images.length : ℤ) := by
    exact_mod_cast List.length_pos.mpr hne
  have hnext : navigate_image s "next"
      = { s with current_index := (s.current_index + 1) % (s.images.length : ℤ),
                 current_zoom := 1 } := by
    simp [navigate_image, hemp]
  have hprev : navigate_image s "prev"
      = { s with current_index := (s.current_index - 1) % (s.images.length : ℤ),
                 current_zoom := 1 } := by
    simp [navigate_image, hemp]
  refine ⟨by rw [hnext], by rw [hprev], ?_, ?_, ?_, ?_, by rw [hnext], by rw [hprev]⟩
  · rw [hnext]; exact Int.emod_nonneg _ (ne_of_gt hn)
  · rw [hnext]; exact Int.emod_lt_of_pos _ hn
  · rw [hprev]; exact Int.emod_nonneg _ (ne_of_gt hn)
  · rw [hprev]; exact Int.emod_lt_of_pos _ hn

/-- Witness for C4: with 3 images, `navigate_image "next"` from index 2
yields index 0 and resets the zoom to 1.0. -/
theorem c4_navigation_wrap_witness :
    (["a", "b", "c"] : List String) ≠ [] ∧
    (navigate_image ⟨["a", "b", "c"], 2, 3⟩ "next").current_index = 0 ∧
    (navigate_image ⟨["a", "b", "c"], 2, 3⟩ "next").current_zoom = 1 := by
  have h := c4_navigation_wrap ⟨["a", "b", "c"], 2, 3⟩
    (by decide) (by decide) (by decide)
  refine ⟨by decide, ?_, h.2.2.2.2.2.2.1⟩
  rw [h.1]
  decide

/-- `update_zoom` (src/app.py lines 193-203): `none` models a
`zoom_value` that `float(...)` fails to convert (`ValueError` /
`TypeError`), in which case the fallback 1.0 is stored; any convertible
value is stored as-is, with no validation or clamping.  The returned
UI string is not modelled. -/
def update_zoom (s : NavState) (zoom_value : Option ℚ) : NavState :=
  match zoom_value with
  | some z => { s with current_zoom := z }
  | none => { s with current_zoom := 1 }

/-- Counterexample for C5: `update_zoom` accepts `-1 ≤ 0` without failing
and changes the stored zoom to `-1`, and it stores `5` even though `5`
lies outside `[0.1, 3.0]` — there is neither an `InvalidZoom` failure nor
clamping. -/
theorem c5_counterexample :
    (-1 : ℚ) ≤ 0 ∧
    (update_zoom ⟨["a"], 0, 1⟩ (some (-1))).current_zoom = -1 ∧
    (update_zoom ⟨["a"], 0, 1⟩ (some (-1))).current_zoom ≠ 1 ∧
    (update_zoom ⟨["a"], 0, 1⟩ (some 5)).current_zoom = 5 ∧
    ¬ ((0.1 : ℚ) ≤ (update_zoom ⟨["a"], 0, 1⟩ (some 5)).current_zoom ∧
       (update_zoom ⟨["a"], 0, 1⟩ (some 5)).current_zoom ≤ 3.0) := by
  refine ⟨by norm_num, rfl, by norm_num [update_zoom], rfl, ?_⟩
  rintro ⟨-, h⟩
  norm_num [update_zoom] at h

/-- Claim C5 (amended): `update_zoom` performs no range validation — any
numeric value is stored exactly as given (no `InvalidZoom` failure, no
clamping into `[0.1, 3.0]`; that interval is enforced only by the slider
widget), and a non-convertible value stores the fallback 1.0; the rest of
the state is untouched. -/
theorem c5_zoom_stored_unvalidated (s : NavState) (v : ℚ) :
    (update_zoom s (some v)).current_zoom = v ∧
    (update_zoom s none).current_zoom = 1 ∧
    (update_zoom s (some v)).images = s.images ∧
    (update_zoom s (some v)).current_index = s.current_index :=
  ⟨rfl, rfl, rfl, rfl⟩

/-- Status of a path in the output store: `present` (exists and
`os.remove` succeeds), `absent` (does not exist — `os.path.exists` is
false), or `locked` (exists, but `os.remove` raises an exception). -/
inductive FStatus where
  | present
  | absent
  | locked
deriving DecidableEq, Repr

/-- Effect of a successful `os.remove(p)` on the store. -/
def removeFile (fs : String → FStatus) (p : String) : String → FStatus :=
  fun q => if q = p then FStatus.absent else fs q

/-- The deletion loop of `delete_selected_crops` (src/app.py lines
412-416): paths that do not exist are skipped (the `os.path.exists`
guard), existing ones are removed and their names recorded; a raising
`os.remove` (a `locked` path) jumps to the `except` branch, abandoning
the remaining paths but keeping the removals already made.  Returns the
updated store, the deleted names in order, and whether the loop finished
without an exception. -/
def deleteLoop : (String → FStatus) → List String → (String → FStatus) × List String × Bool
  | fs, [] => (fs, [], true)
  | fs, p :: rest =>
    match fs p with
    | FStatus.absent => deleteLoop fs rest
    | FStatus.present =>
      let r := deleteLoop (removeFile fs p) rest
      (r.1, p :: r.2.1, r.2.2)
    | FStatus.locked => (fs, [], false)

/-- The app state seen by the batch-delete operation: the selection
(`self.selected_for_deletion`, iterated as `list(...)`) and the output
store modelled as a status map over paths. -/
structure DelApp where
  selected_for_deletion : List String
  fs : String → FStatus

/-- Outcome reported by `delete_selected_crops`: the early return when
nothing is selected, the success message with the deleted names, or the
`except`-branch error message. -/
inductive DelReport where
  | noSelection
  | deleted (names : List String)
  | delError
deriving DecidableEq, Repr

/-- `delete_selected_crops` (src/app.py lines 403-424): early return on an
empty selection; otherwise run the deletion loop; on success clear the
selection and report the deleted names; on an exception keep the
selection as it was (only the loop's partial removals persist) and
report an error.  Gallery rendering is not modelled. -/
def delete_selected_crops (s : DelApp) : DelApp × DelReport :=
  if s.selected_for_deletion.isEmpty then (s, DelReport.noSelection)
  else
    let r := deleteLoop s.fs s.selected_for_deletion
    if r.2.2 then
      ({ selected_for_deletion := [], fs := r.1 }, DelReport.deleted r.2.1)
    else
      ({ selected_for_deletion := s.selected_for_deletion, fs := r.1 }, DelReport.delError)

/-- Number of deletions a report conveys (`deleted_count` in the source;
the early return and the error message convey none). -/
def deletedCount : DelReport → ℕ
  | DelReport.noSelection => 0
  | DelReport.deleted names => names.length
  | DelReport.delError => 0

/-- `toggle_file_selection` (src/app.py lines 358-386) restricted to the
selection bookkeeping: the clicked gallery index is resolved against the
current output-file list and, if in range, that path's membership in the
selection set is flipped; an out-of-range index leaves the set
unchanged.  Captions and thumbnails are not modelled. -/
def toggle_file_selection (output_files : List String) (sel : Finset String)
    (idx : ℕ) : Finset String :=
  if h : idx < output_files.length then
    let file_path := output_files.get ⟨idx, h⟩
    if file_path ∈ sel then sel.erase file_path else insert file_path sel
  else sel

/-- Paths not visited by the deletion loop keep their status. -/
theorem deleteLoop_fs_of_not_mem (paths : List String) :
    ∀ (fs : String → FStatus) (q : String), q ∉ paths →
      (deleteLoop fs paths).1 q = fs q := by
  induction paths with
  | nil => intro fs q _; rfl
  | cons p rest ih =>
    intro fs q hq
    have hqp : q ≠ p := fun e => hq (e ▸ List.mem_cons_self p rest)
    have hqr : q ∉ rest := fun hm => hq (List.mem_cons_of_mem _ hm)
    cases hfp : fs p with
    | absent => simp only [deleteLoop, hfp]; exact ih fs q hqr
    | present =>
      simp only [deleteLoop, hfp]
      rw [ih _ q hqr]
      simp [removeFile, hqp]
    | locked => simp only [deleteLoop, hfp]

/-- The deletion loop never resurrects a path: absent stays absent. -/
theorem deleteLoop_absent (paths : List String) :
    ∀ (fs : String → FStatus) (q : String), fs q = FStatus.absent →
      (deleteLoop fs paths).1 q = FStatus.absent := by
  induction paths with
  | nil => intro fs q h; exact h
  | cons p rest ih =>
    intro fs q h
    cases hfp : fs p with
    | absent => simp only [deleteLoop, hfp]; exact ih fs q h
    | present =>
      simp only [deleteLoop, hfp]
      refine ih _ q ?_
      simp only [removeFile]
      split <;> simp [h]
    | locked => simp only [deleteLoop, hfp]; exact h

/-- If no selected path is locked, the loop finishes without an
exception. -/
theorem deleteLoop_ok (paths : List String) :
    ∀ fs : String → FStatus, (∀ p ∈ paths, fs p ≠ FStatus.locked) →
      (deleteLoop fs paths).2.2 = true := by
  induction paths with
  | nil => intro fs _; rfl
  | cons p rest ih =>
    intro fs h
    have hp := h p (List.mem_cons_self p rest)
    cases hfp : fs p with
    | absent =>
      simp only [deleteLoop, hfp]
      exact ih fs fun x hx => h x (List.mem_cons_of_mem _ hx)
    | present =>
      simp only [deleteLoop, hfp]
      refine ih _ fun x hx => ?_
      simp only [removeFile]
      split
      · simp
      · exact h x (List.mem_cons_of_mem _ hx)
    | locked => exact absurd hfp hp

/-- If no selected path is locked, every selected path ends up absent. -/
theorem deleteLoop_mem_absent (paths : List String) :
    ∀ (fs : String → FStatus) (q : String),
      (∀ p ∈ paths, fs p ≠ FStatus.locked) → q ∈ paths →
      (deleteLoop fs paths).1 q = FStatus.absent := by
  induction paths with
  | nil => intro fs q _ hq; cases hq
  | cons p rest ih =>
    intro fs q h hq
    have hp := h p (List.mem_cons_self p rest)
    have hrest : ∀ x ∈ rest, fs x ≠ FStatus.locked :=
      fun x hx => h x (List.mem_cons_of_mem _ hx)
    cases hfp : fs p with
    | absent =>
      simp only [deleteLoop, hfp]
      rcases List.mem_cons.mp hq with rfl | hqr
      · exact deleteLoop_absent rest fs q hfp
      · exact ih fs q hrest hqr
    | present =>
      simp only [deleteLoop, hfp]
      rcases List.mem_cons.mp hq with rfl | hqr
      · exact deleteLoop_absent rest _ q (by simp [removeFile])
      · refine ih _ q (fun x hx => ?_) hqr
        simp only [removeFile]
        split
        · simp
        · exact hrest x hx
    | locked => exact absurd hfp hp

/-- If no selected path is locked and the selection has no duplicates,
the loop reports exactly the selected paths that were present. -/
theorem deleteLoop_names (paths : List String) :
    ∀ fs : String → FStatus, paths.Nodup →
      (∀ p ∈ paths, fs p ≠ FStatus.locked) →
      (deleteLoop fs paths).2.1
        = paths.filter (fun p => decide (fs p = FStatus.present)) := by
  induction paths with
  | nil => intro fs _ _; rfl
  | cons p rest ih =>
    intro fs hnd h
    have hp := h p (List.mem_cons_self p rest)
    have hndr := (List.nodup_cons.mp hnd).2
    have hpr := (List.nodup_cons.mp hnd).1
    have hrest : ∀ x ∈ rest, fs x ≠ FStatus.locked :=
      fun x hx => h x (List.mem_cons_of_mem _ hx)
    cases hfp : fs p with
    | absent =>
      simp only [deleteLoop, hfp]
      rw [ih fs hndr hrest, List.filter_cons]
      simp [hfp]
    | present =>
      simp only [deleteLoop, hfp]
      have hrest2 : ∀ x ∈ rest, removeFile fs p x ≠ FStatus.locked := by
        intro x hx
        simp only [removeFile]
        split
        · simp
        · exact hrest x hx
      have hcongr : List.filter (fun x => decide (removeFile fs p x = FStatus.present)) rest
          = List.filter (fun x => decide (fs x = FStatus.present)) rest := by
        refine List.filter_congr fun x hx => ?_
        have hxp : x ≠ p := fun e => hpr (e ▸ hx)
        simp [removeFile, hxp]
      rw [ih _ hndr hrest2, hcongr, List.filter_cons]
      simp [hfp]
    | locked => exact absurd hfp hp

/-- If some selected path is locked and the selection has no duplicates,
the loop aborts with an exception. -/
theorem deleteLoop_abort (paths : List String) :
    ∀ fs : String → FStatus, paths.Nodup →
      (∃ p ∈ paths, fs p = FStatus.locked) →
      (deleteLoop fs paths).2.2 = false := by
  induction paths with
  | nil => intro fs _ h; exact absurd h (by simp)
  | cons p rest ih =>
    intro fs hnd h
    obtain ⟨p0, hp0, hlock⟩ := h
    have hndr := (List.nodup_cons.mp hnd).2
    have hpr := (List.nodup_cons.mp hnd).1
    cases hfp : fs p with
    | absent =>
      simp only [deleteLoop, hfp]
      have hne : p0 ≠ p := fun e => by rw [e, hfp] at hlock; cases hlock
      exact ih fs hndr ⟨p0, (List.mem_cons.mp hp0).resolve_left hne, hlock⟩
    | present =>
      simp only [deleteLoop, hfp]
      have hne : p0 ≠ p := fun e => by rw [e, hfp] at hlock; cases hlock
      refine ih _ hndr ⟨p0, (List.mem_cons.mp hp0).resolve_left hne, ?_⟩
      simp [removeFile, hne, hlock]
    | locked => simp only [deleteLoop, hfp]

/-- Counterexample for C6: with the single selected path `"a"` whose
removal raises, `delete_selected_crops` hits the `except` branch and the
selection set is left non-empty — it is not cleared "in every case". -/
theorem c6_counterexample :
    (delete_selected_crops
      ⟨["a"], fun p => if p = "a" then FStatus.locked else FStatus.absent⟩).1.selected_for_deletion
      = ["a"] ∧
    (delete_selected_crops
      ⟨["a"], fun p => if p = "a" then FStatus.locked else FStatus.absent⟩).2
      = DelReport.delError ∧
    (["a"] : List String) ≠ [] := by
  refine ⟨?_, ?_, by decide⟩ <;> decide

/-- Claim C6 (amended): the loop continues past already-removed
(non-existent) files; if no removal raises, every selected present file
is deleted, the count of deleted names is reported, and the selection is
cleared — but if some removal raises an exception, the remaining paths
are abandoned and the selection set is left unchanged, not cleared
(duplicate-free selection, as produced by `list(set)`). -/
theorem c6_delete_clears_only_without_exception (s : DelApp)
    (hnd : s.selected_for_deletion.Nodup) :
    ((∀ p ∈ s.selected_for_deletion, s.fs p ≠ FStatus.locked) →
      (delete_selected_crops s).1.selected_for_deletion = [] ∧
      deletedCount (delete_selected_crops s).2
        = (s.selected_for_deletion.filter
            (fun p => decide (s.fs p = FStatus.present))).length) ∧
    ((∃ p ∈ s.selected_for_deletion, s.fs p = FStatus.locked) →
      (delete_selected_crops s).1.selected_for_deletion
        = s.selected_for_deletion) := by
  constructor
  · intro hok
    by_cases he : s.selected_for_deletion.isEmpty
    · have hnil : s.selected_for_deletion = [] := List.isEmpty_iff.mp he
      simp [delete_selected_crops, he, hnil, deletedCount]
    · have hfin := deleteLoop_ok _ _ hok
      have hnames := deleteLoop_names _ _ hnd hok
      simp [delete_selected_crops, he, hfin, deletedCount, hnames]
  · rintro ⟨p, hp, hlock⟩
    have hne : s.selected_for_deletion ≠ [] := fun hnil => by
      rw [hnil] at hp; cases hp
    have he : s.selected_for_deletion.isEmpty = false := by
      simp [List.isEmpty_iff, hne]
    have habort := deleteLoop_abort _ _ hnd ⟨p, hp, hlock⟩
    simp [delete_selected_crops, he, habort]

/-- Witness for C6's amended theorem: selection `["a", "b"]` with `"a"`
present and `"b"` already removed — the run deletes one file, reports
one deletion and clears the selection. -/
theorem c6_delete_clears_only_without_exception_witness :
    (["a", "b"] : List String).Nodup ∧
    (delete_selected_crops
      ⟨["a", "b"], fun p => if p = "a" then FStatus.present
        else FStatus.absent⟩).1.selected_for_deletion = [] ∧
    deletedCount (delete_selected_crops
      ⟨["a", "b"], fun p => if p = "a" then FStatus.present
        else FStatus.absent⟩).2 = 1 := by
  have h := (c6_delete_clears_only_without_exception
    ⟨["a", "b"], fun p => if p = "a" then FStatus.present else FStatus.absent⟩
    (by decide)).1 (by decide)
  refine ⟨by decide, h.1, ?_⟩
  rw [h.2]
  decide

/-- Claim C7: toggling the same gallery index twice returns the selection
set to its original value, and batch delete on an empty selection deletes
nothing and reports zero deletions. -/
theorem c7_toggle_involution_and_empty_delete (output_files : List String)
    (sel : Finset String) (idx : ℕ) (fs : String → FStatus)
    (h : idx < output_files.length) :
    toggle_file_selection output_files
        (toggle_file_selection output_files sel idx) idx = sel ∧
    (delete_selected_crops ⟨[], fs⟩).1 = ⟨[], fs⟩ ∧
    deletedCount (delete_selected_crops ⟨[], fs⟩).2 = 0 := by
  refine ⟨?_, rfl, rfl⟩
  by_cases hfp : output_files[idx] ∈ sel
  · simp [toggle_file_selection, h, hfp, Finset.mem_erase,
      Finset.insert_erase hfp]
  · simp [toggle_file_selection, h, hfp, Finset.mem_insert,
      Finset.erase_insert hfp]

/-- Witness for C7 at a concrete input. -/
theorem c7_toggle_involution_and_empty_delete_witness :
    0 < (["a"] : List String).length ∧
    toggle_file_selection ["a"] (toggle_file_selection ["a"] ∅ 0) 0 = ∅ ∧
    (delete_selected_crops ⟨[], fun _ => FStatus.absent⟩).1
      = ⟨[], fun _ => FStatus.absent⟩ ∧
    deletedCount (delete_selected_crops ⟨[], fun _ => FStatus.absent⟩).2 = 0 :=
  have h := c7_toggle_involution_and_empty_delete ["a"] ∅ 0
    (fun _ => FStatus.absent) (by decide)
  ⟨by decide, h.1, h.2.1, h.2.2⟩

/-- Claim C10: when no removal raises, batch delete removes exactly the
files that are both selected and present — every path outside the
selection keeps its status, and every selected path ends up absent. -/
theorem c10_delete_frame (s : DelApp)
    (hok : ∀ p ∈ s.selected_for_deletion, s.fs p ≠ FStatus.locked) :
    (∀ q, q ∉ s.selected_for_deletion →
      (delete_selected_crops s).1.fs q = s.fs q) ∧
    (∀ q ∈ s.selected_for_deletion,
      (delete_selected_crops s).1.fs q = FStatus.absent) := by
  by_cases he : s.selected_for_deletion.isEmpty
  · have hnil : s.selected_for_deletion = [] := List.isEmpty_iff.mp he
    constructor
    · intro q _; simp [delete_selected_crops, he]
    · intro q hq; rw [hnil] at hq; cases hq
  · have hfin := deleteLoop_ok _ _ hok
    constructor
    · intro q hq
      simp only [delete_selected_crops, he, Bool.false_eq_true, if_false, hfin, if_true]
      exact deleteLoop_fs_of_not_mem _ _ _ hq
    · intro q hq
      simp only [delete_selected_crops, he, Bool.false_eq_true, if_false, hfin, if_true]
      exact deleteLoop_mem_absent _ _ _ hok hq

/-- Witness for C10: selection `["a", "b"]` over a store where `"a"` is
present, `"b"` absent and the unselected `"z"` present — `"z"` keeps its
status and `"a"` is removed. -/
theorem c10_delete_frame_witness :
    (delete_selected_crops ⟨["a", "b"],
      fun p => if p = "a" then FStatus.present
        else if p = "z" then FStatus.present else FStatus.absent⟩).1.fs "z"
      = FStatus.present ∧
    (delete_selected_crops ⟨["a", "b"],
      fun p => if p = "a" then FStatus.present
        else if p = "z" then FStatus.present else FStatus.absent⟩).1.fs "a"
      = FStatus.absent := by
  have h := c10_delete_frame ⟨["a", "b"],
    fun p => if p = "a" then FStatus.present
      else if p = "z" then FStatus.present else FStatus.absent⟩ (by decide)
  exact ⟨(h.1 "z" (by decide)).trans (by decide), h.2 "a" (by decide)⟩

/-- Filenames in the output store, modelled as character lists
(`String.data`) so that concatenation and prefix tests are structural. -/
abbrev FileName := List Char

/-- Python `str.startswith`, character by character. -/
def startsWithName : FileName → FileName → Bool
  | [], _ => true
  | _ :: _, [] => false
  | b :: bs, c :: cs => b == c && startsWithName bs cs

/-- The filename derived by `save_crop` (src/app.py lines 296-299):
`crop_count` is the number of entries of the output directory whose name
starts with the source image's base name, plus one, and the file is
written as `f"{base_name}_crop_{crop_count}.png"`. -/
def save_crop_filename (output_files : List FileName) (base_name : FileName) : FileName :=
  base_name ++ "_crop_".data
    ++ (Nat.repr ((output_files.filter
          (fun f => startsWithName base_name f)).length + 1)).data
    ++ ".png".data

/-- `startswith` holds for any extension of the base name. -/
theorem startsWithName_append (base r : FileName) :
    startsWithName base (base ++ r) = true := by
  induction base with
  | nil => rfl
  | cons b bs ih => simp [startsWithName, ih]

/-- Counterexample for C8: if the store contains only `img_crop_2.png`
(as it does after saving two crops of `img` and deleting the first), the
derived name for the next crop of `img` is again `img_crop_2.png`, which
collides with the existing entry. -/
theorem c8_counterexample :
    save_crop_filename ["img_crop_2.png".data] "img".data = "img_crop_2.png".data ∧
    "img_crop_2.png".data ∈ ["img_crop_2.png".data] := by
  refine ⟨?_, by decide⟩
  decide

/-- Claim C8 (amended): the derived name is
`f"{base}_crop_{n}.png"` with `n` = 1 + the count of store entries whose
name starts with `base`; this counting does not guarantee freshness — for
every base name there is a store state (one produced by saving twice and
deleting the first crop) in which the derived name coincides with an
existing entry. -/
theorem c8_name_can_collide (base : FileName) :
    save_crop_filename [base ++ "_crop_2.png".data] base
      ∈ [base ++ "_crop_2.png".data] := by
  have hpre : startsWithName base (base ++ "_crop_2.png".data) = true :=
    startsWithName_append base _
  have hfilter : List.filter (fun f => startsWithName base f)
      [base ++ "_crop_2.png".data] = [base ++ "_crop_2.png".data] := by
    simp [List.filter, hpre]
  have h2 : ("_crop_".data : List Char) ++ ((Nat.repr (1 + 1)).data ++ ".png".data)
      = "_crop_2.png".data := by decide
  simp only [save_crop_filename, hfilter, List.length_singleton,
    List.append_assoc, h2, List.mem_singleton]

/-- Counterexample for C9: a click at `(150, 150)`, outside the 100×100
display rectangle, is not treated as `(0, 0)` — it is used as-is and
produces a different crop origin than a click at `(0, 0)`. -/
theorem c9_counterexample :
    ¬ ((150 : ℤ) < 100) ∧
    (process_crop_click 50 50 1 (some (150, 150)) 200 200 100 100).crop_x = 150 ∧
    (process_crop_click 50 50 1 (some (0, 0)) 200 200 100 100).crop_x = 0 ∧
    process_crop_click 50 50 1 (some (150, 150)) 200 200 100 100
      ≠ process_crop_click 50 50 1 (some (0, 0)) 200 200 100 100 := by
  have h1 : (process_crop_click 50 50 1 (some (150, 150)) 200 200 100 100).crop_x = 150 := by
    norm_num [process_crop_click, effective_crop_width, pyInt] <;> decide
  have h2 : (process_crop_click 50 50 1 (some (0, 0)) 200 200 100 100).crop_x = 0 := by
    norm_num [process_crop_click, effective_crop_width, pyInt] <;> decide
  refine ⟨by decide, h1, h2, fun heq => ?_⟩
  rw [heq, h2] at h1
  exact absurd h1 (by decide)

/-- Claim C9 (amended): only a missing/empty click payload is defaulted
to `(0, 0)`; out-of-range coordinates are used unchanged, and the
subsequent clamping keeps the resolved rectangle inside the image for
every click, so crop resolution is total and never rejects a click. -/
theorem c9_click_default_and_total (base_w base_h : ℤ) (zoom : ℚ)
    (click : Option (ℤ × ℤ)) (W H dw dh : ℤ) :
    process_crop_click base_w base_h zoom none W H dw dh
      = process_crop_click base_w base_h zoom (some (0, 0)) W H dw dh ∧
    (0 ≤ (process_crop_click base_w base_h zoom click W H dw dh).crop_x ∧
     0 ≤ (process_crop_click base_w base_h zoom click W H dw dh).crop_y ∧
     (process_crop_click base_w base_h zoom click W H dw dh).crop_x
       + (process_crop_click base_w base_h zoom click W H dw dh).actual_crop_width ≤ W ∧
     (process_crop_click base_w base_h zoom click W H dw dh).crop_y
       + (process_crop_click base_w base_h zoom click W H dw dh).actual_crop_height ≤ H) :=
  ⟨rfl, process_crop_click_bounds base_w base_h zoom click W H dw dh⟩

end PixelPruner
